import Mathlib

/-!
Verification of the path-predicate functors in
`src/macaron/code_analyzer/dataflow_analysis/datalog/functors/functors.cpp`.

The file defines two exported functions:

* `basename` decodes its argument through the symbol table, builds a
  `std::filesystem::path` from it and returns `p.filename()` re-encoded.
  On POSIX (the target platform, separator `/`, no root-names in
  libstdc++'s decomposition) `filename()` is exactly the substring after
  the last `/` of the string, or the whole string when it has no `/`.
  The symbol-table `decode`/`encode` pair is value-faithful marshalling,
  so the functor is modelled as a function on strings.

* `isUnderDir` takes two C strings.  After the emptiness test on
  `dirpath` it executes `if (dirpath == filepath)` — a comparison of the
  two `const char *` POINTERS, not of the string values.  A shallow
  embedding over string values cannot decide that test from the values
  alone, so the model takes an extra argument `samePtr : Bool` standing
  for the address equality of the two incoming pointers.  Address
  equality of C strings implies value equality, so every real call
  satisfies `samePtr = true → dirpath = filepath`; the converse does not
  hold, which is exactly the latent defect discussed in the spec.

Strings are modelled through their character lists (`String.data`);
`std::string::substr(0, n)` is `List.take n`, which clamps at the length
just as `substr` does.
-/

/-- Characters of `std::filesystem::path(l).filename()` for a POSIX path
given by the character list `l`: the suffix after the last `'/'`,
the whole list when no `'/'` occurs.  Computed by taking the longest
separator-free suffix. -/
def basenameList (l : List Char) : List Char :=
  (l.reverse.takeWhile fun c => c != '/').reverse

/-- The `basename` functor of `functors.cpp` as a function on the decoded
string values: decode, `std::filesystem::path::filename`, encode. -/
def basename (s : String) : String :=
  String.mk (basenameList s.data)

/-- Core of the `isUnderDir` functor on character lists, mirroring the
branch structure of the C++ source line by line.  `samePtr` models the
pointer comparison `dirpath == filepath` (see the file header). -/
def isUnderDirList (samePtr : Bool) (d f : List Char) : Int :=
  if d.length = 0 then 0
  else if samePtr then 0
  else if d.getLast? = some '/' then
    if f.take d.length = d then 1 else 0
  else
    if f.take (d.length + 1) = d ++ ['/'] then 1 else 0

/-- The `isUnderDir` functor of `functors.cpp` on string values, with
`samePtr` standing for the address equality of the two pointer
arguments. -/
def isUnderDir (samePtr : Bool) (dirpath filepath : String) : Int :=
  isUnderDirList samePtr dirpath.data filepath.data

/-- Variant of `isUnderDirList` that makes the one operational hazard of
the C++ body explicit: the character access `dirpathstr[size()-1]` is
modelled by `List.get?`, and an out-of-range access would surface as
`none` instead of undefined behaviour. -/
def isUnderDirChecked (samePtr : Bool) (d f : List Char) : Option Int :=
  if d.length = 0 then some 0
  else if samePtr then some 0
  else
    match d.get? (d.length - 1) with
    | none => none
    | some c =>
      if c = '/' then some (if f.take d.length = d then 1 else 0)
      else some (if f.take (d.length + 1) = d ++ ['/'] then 1 else 0)

/-- `substr(0, n) == d` with `n = |d|` says exactly that `d` starts `f`:
the clamped take equals `d` iff `f` is `d` followed by some tail. -/
lemma take_eq_iff_append (d f : List Char) :
    f.take d.length = d ↔ ∃ rest, f = d ++ rest := by
  constructor
  · intro h
    refine ⟨f.drop d.length, ?_⟩
    conv_lhs => rw [← List.take_append_drop d.length f]
    rw [h]
  · rintro ⟨rest, rfl⟩
    exact List.take_left d rest

/-- Same fact for the branch that appends a separator first. -/
lemma take_eq_iff_append_sep (d f : List Char) :
    f.take (d.length + 1) = d ++ ['/'] ↔ ∃ rest, f = d ++ '/' :: rest := by
  have h1 : (d ++ ['/']).length = d.length + 1 := by simp
  rw [← h1, take_eq_iff_append (d ++ ['/']) f]
  constructor
  · rintro ⟨rest, rfl⟩
    exact ⟨rest, by simp⟩
  · rintro ⟨rest, rfl⟩
    exact ⟨rest, by simp⟩

/-- The functor only ever produces the two host-convention booleans. -/
lemma isUnderDirList_zero_or_one (p : Bool) (d f : List Char) :
    isUnderDirList p d f = 0 ∨ isUnderDirList p d f = 1 := by
  unfold isUnderDirList
  split
  · exact Or.inl rfl
  · split
    · exact Or.inl rfl
    · split
      · split
        · exact Or.inr rfl
        · exact Or.inl rfl
      · split
        · exact Or.inr rfl
        · exact Or.inl rfl

/-- Every character kept by `takeWhile` satisfies the test, so the
separator-free suffix really is separator-free. -/
lemma not_sep_mem_basenameList (l : List Char) : '/' ∉ basenameList l := by
  intro hmem
  unfold basenameList at hmem
  rw [List.mem_reverse] at hmem
  have h := List.mem_takeWhile_imp hmem
  simp at h

/-- A list containing a separator splits as everything up to the last
separator, the separator, and the separator-free suffix. -/
lemma basenameList_split (l : List Char) (h : '/' ∈ l) :
    ∃ pre, l = pre ++ '/' :: basenameList l := by
  have hr : '/' ∈ l.reverse := by rwa [List.mem_reverse]
  have key : ∀ r : List Char, '/' ∈ r →
      ∃ q, r = (r.takeWhile fun c => c != '/') ++ '/' :: q := by
    intro r hin
    induction r with
    | nil => simp at hin
    | cons c cs ih =>
      by_cases hc : c = '/'
      · subst hc
        refine ⟨cs, ?_⟩
        simp [List.takeWhile_cons]
      · have hcs : '/' ∈ cs := by
          rcases List.mem_cons.mp hin with h1 | h1
          · exact absurd h1.symm hc
          · exact h1
        obtain ⟨q, hq⟩ := ih hcs
        refine ⟨q, ?_⟩
        have hb : (c != '/') = true := by simpa using hc
        rw [List.takeWhile_cons, hb]
        simpa using hq
  obtain ⟨q, hq⟩ := key l.reverse hr
  refine ⟨q.reverse, ?_⟩
  have h2 : basenameList l = (l.reverse.takeWhile fun c => c != '/').reverse := rfl
  rw [h2]
  conv_lhs => rw [← List.reverse_reverse l, hq]
  simp

/-- On a separator-free list the separator-free suffix is the whole
list. -/
lemma basenameList_of_not_mem (l : List Char) (h : '/' ∉ l) :
    basenameList l = l := by
  unfold basenameList
  have : l.reverse.takeWhile (fun c => c != '/') = l.reverse := by
    rw [List.takeWhile_eq_self_iff]
    intro a ha
    rw [List.mem_reverse] at ha
    simp
    intro hEq
    exact h (hEq ▸ ha)
  rw [this, List.reverse_reverse]

/-- Nonemptiness of a string transfers to its character list length. -/
lemma length_ne_zero_of_ne_empty (d : String) (h : d ≠ "") :
    ¬ d.data.length = 0 := by
  intro hlen
  apply h
  apply String.ext
  rw [List.length_eq_zero.mp hlen]

/-- C6: with an empty `dirPath` the functor answers false whatever the
second argument and whatever the pointer relationship is. -/
theorem isUnderDir_empty_dirpath :
    ∀ (p : Bool) (f : String), isUnderDir p "" f = 0 := by
  intro p f
  rfl

/-- C3: for a nonempty `dirPath` that ends in the separator and differs
from `filePath`, the functor answers true exactly when `filePath` starts
with `dirPath`; in particular `isUnderDir "/a/" "/a/b"` is true.  The
hypothesis `p = true → d = f` records that address equality of the two C
pointers forces value equality. -/
theorem isUnderDir_trailing_sep_iff :
    (∀ (p : Bool) (d f : String), (p = true → d = f) → d ≠ "" →
        d.data.getLast? = some '/' → d ≠ f →
        (isUnderDir p d f = 1 ↔ ∃ rest, f.data = d.data ++ rest))
    ∧ isUnderDir false "/a/" "/a/b" = 1 := by
  refine ⟨?_, by decide⟩
  intro p d f hp hne hlast hneq
  have hp0 : p = false := by
    cases p
    · rfl
    · exact absurd (hp rfl) hneq
  subst hp0
  have hd0 := length_ne_zero_of_ne_empty d hne
  show isUnderDirList false d.data f.data = 1 ↔ _
  unfold isUnderDirList
  rw [if_neg hd0, if_neg Bool.false_ne_true, if_pos hlast]
  constructor
  · intro h
    by_cases ht : f.data.take d.data.length = d.data
    · exact (take_eq_iff_append _ _).mp ht
    · rw [if_neg ht] at h
      exact absurd h (by decide)
  · intro h
    rw [if_pos ((take_eq_iff_append _ _).mpr h)]

/-- C2: for a nonempty `dirPath` that does not end in the separator and
differs from `filePath`, the functor answers true exactly when
`filePath` starts with `dirPath` followed by a separator; in particular
`isUnderDir "/a" "/a/b"` is true and `isUnderDir "/a" "/ab/c"` is
false. -/
theorem isUnderDir_no_trailing_sep_iff :
    (∀ (p : Bool) (d f : String), (p = true → d = f) → d ≠ "" →
        d.data.getLast? ≠ some '/' → d ≠ f →
        (isUnderDir p d f = 1 ↔ ∃ rest, f.data = d.data ++ '/' :: rest))
    ∧ isUnderDir false "/a" "/a/b" = 1 ∧ isUnderDir false "/a" "/ab/c" = 0 := by
  refine ⟨?_, by decide, by decide⟩
  intro p d f hp hne hlast hneq
  have hp0 : p = false := by
    cases p
    · rfl
    · exact absurd (hp rfl) hneq
  subst hp0
  have hd0 := length_ne_zero_of_ne_empty d hne
  show isUnderDirList false d.data f.data = 1 ↔ _
  unfold isUnderDirList
  rw [if_neg hd0, if_neg Bool.false_ne_true, if_neg hlast]
  constructor
  · intro h
    by_cases ht : f.data.take (d.data.length + 1) = d.data ++ ['/']
    · exact (take_eq_iff_append_sep _ _).mp ht
    · rw [if_neg ht] at h
      exact absurd h (by decide)
  · intro h
    rw [if_pos ((take_eq_iff_append_sep _ _).mpr h)]

/-- C10: whenever the functor answers true, `dirPath` literally starts
`filePath`, so the answer is never true for a `filePath` shorter than
`dirPath`. -/
theorem isUnderDir_one_starts_with :
    ∀ (p : Bool) (d f : String), isUnderDir p d f = 1 →
      (∃ rest, f.data = d.data ++ rest)
      ∧ d.data.length ≤ f.data.length := by
  intro p d f h
  have hsplit : ∃ rest, f.data = d.data ++ rest := by
    unfold isUnderDir isUnderDirList at h
    by_cases h0 : d.data.length = 0
    · rw [if_pos h0] at h
      exact absurd h (by decide)
    · rw [if_neg h0] at h
      cases p with
      | true => simp at h
      | false =>
        rw [if_neg Bool.false_ne_true] at h
        by_cases hl : d.data.getLast? = some '/'
        · rw [if_pos hl] at h
          by_cases ht : f.data.take d.data.length = d.data
          · exact (take_eq_iff_append _ _).mp ht
          · rw [if_neg ht] at h
            exact absurd h (by decide)
        · rw [if_neg hl] at h
          by_cases ht : f.data.take (d.data.length + 1) = d.data ++ ['/']
          · obtain ⟨rest, hr⟩ := (take_eq_iff_append_sep _ _).mp ht
            exact ⟨'/' :: rest, hr⟩
          · rw [if_neg ht] at h
            exact absurd h (by decide)
  refine ⟨hsplit, ?_⟩
  obtain ⟨rest, hr⟩ := hsplit
  rw [hr]
  simp

/-- C4: `basename` returns the final path component: the suffix after
the last separator when one occurs, the whole string otherwise;
`basename "a/b/c" = "c"` and `basename "" = ""`. -/
theorem basename_final_component :
    (∀ s : String,
        ('/' ∈ s.data →
          ∃ pre, s.data = pre ++ '/' :: (basename s).data
            ∧ '/' ∉ (basename s).data)
        ∧ ('/' ∉ s.data → basename s = s))
    ∧ basename "a/b/c" = "c" ∧ basename "" = "" := by
  refine ⟨?_, by decide, by decide⟩
  intro s
  constructor
  · intro h
    obtain ⟨pre, hp⟩ := basenameList_split s.data h
    exact ⟨pre, hp, not_sep_mem_basenameList s.data⟩
  · intro h
    exact String.ext (basenameList_of_not_mem s.data h)

/-- C5: a trailing separator yields the empty final component. -/
theorem basename_trailing_sep_empty : basename "a/b/" = "" := by decide

/-- C7: no character of `basename`'s result is the separator. -/
theorem basename_no_separator :
    ∀ s : String, ((basename s).data.all fun c => c != '/') = true := by
  intro s
  rw [List.all_eq_true]
  intro c hc
  have hmem : c ∈ basenameList s.data := hc
  rw [bne_iff_ne]
  intro hEq
  exact not_sep_mem_basenameList s.data (hEq ▸ hmem)

/-- C8: both functors are total.  The checked variant, in which the one
operational hazard of the C++ body (the `dirpathstr[size()-1]` access)
is explicit, always returns `some` of the straight-line result; the
boolean result is always one of the two host-convention values; and
`basename` yields a string on every input. -/
theorem functors_total :
    (∀ (p : Bool) (d f : String),
        isUnderDirChecked p d.data f.data = some (isUnderDir p d f))
    ∧ (∀ (p : Bool) (d f : String),
        isUnderDir p d f = 0 ∨ isUnderDir p d f = 1)
    ∧ (∀ s : String, ∃ t : String, basename s = t) := by
  refine ⟨?_, fun p d f => isUnderDirList_zero_or_one p d.data f.data,
    fun s => ⟨basename s, rfl⟩⟩
  intro p d f
  unfold isUnderDirChecked isUnderDir isUnderDirList
  by_cases h0 : d.data.length = 0
  · rw [if_pos h0, if_pos h0]
  · rw [if_neg h0, if_neg h0]
    cases p with
    | true => simp
    | false =>
      rw [if_neg Bool.false_ne_true, if_neg Bool.false_ne_true]
      rw [List.get?_eq_getElem?, ← List.getLast?_eq_getElem?]
      cases hL : d.data.getLast? with
      | none =>
        rw [List.getLast?_eq_none_iff] at hL
        exact absurd (by rw [hL]; rfl) h0
      | some c =>
        by_cases hc : c = '/'
        · subst hc
          simp
        · simp [hc]

/-- C9 fails on the code: the result of `isUnderDir` depends on the
address relationship of the two pointer arguments, not only on the two
string values.  On the identical value pair `"/a/"`, `"/a/"` the call
answers false when the host passes the same pointer twice and true when
it passes two separately stored copies. -/
theorem isUnderDir_pointer_sensitive :
    isUnderDir true "/a/" "/a/" = 0 ∧ isUnderDir false "/a/" "/a/" = 1 := by
  exact ⟨by decide, by decide⟩

/-- C1 fails on the code: two separately stored strings with the equal
value `"/a/"` (so distinct pointers, modelled by `samePtr = false`) are
missed by the pointer comparison, and since the value ends in the
separator the prefix test then succeeds against itself, answering
true. -/
theorem isUnderDir_equal_values_trailing : isUnderDir false "/a/" "/a/" = 1 := by
  decide

/-- Witness for `isUnderDir_trailing_sep_iff` at `"/a/"`, `"/a/b"`. -/
theorem isUnderDir_trailing_sep_iff_witness :
    isUnderDir false "/a/" "/a/b" = 1 :=
  (isUnderDir_trailing_sep_iff.1 false "/a/" "/a/b" (by decide) (by decide)
    (by decide) (by decide)).mpr ⟨['b'], by decide⟩

/-- Witness for `isUnderDir_no_trailing_sep_iff` at `"/a"`, `"/a/b"`. -/
theorem isUnderDir_no_trailing_sep_iff_witness :
    isUnderDir false "/a" "/a/b" = 1 :=
  (isUnderDir_no_trailing_sep_iff.1 false "/a" "/a/b" (by decide) (by decide)
    (by decide) (by decide)).mpr ⟨['b'], by decide⟩

/-- Witness for `isUnderDir_one_starts_with` at `"/a"`, `"/a/b"`. -/
theorem isUnderDir_one_starts_with_witness :
    (∃ rest, ("/a/b" : String).data = ("/a" : String).data ++ rest)
    ∧ ("/a" : String).data.length ≤ ("/a/b" : String).data.length :=
  isUnderDir_one_starts_with false "/a" "/a/b" (by decide)

/-- Witness for `basename_final_component` at `"a/b/c"`. -/
theorem basename_final_component_witness :
    ∃ pre, ("a/b/c" : String).data = pre ++ '/' :: (basename "a/b/c").data
      ∧ '/' ∉ (basename "a/b/c").data :=
  (basename_final_component.1 "a/b/c").1 (by decide)

example : basename "a/b/c" = "c" := by decide
example : basename "" = "" := by decide
example : basename "a/b/" = "" := by decide
example : basename "file.txt" = "file.txt" := by decide
example : isUnderDir false "/a" "/a/b" = 1 := by decide
example : isUnderDir false "/a" "/ab/c" = 0 := by decide
example : isUnderDir false "/a/" "/a/b" = 1 := by decide
example : isUnderDir false "/a" "/a" = 0 := by decide
example : isUnderDir false "/a/" "/a/" = 1 := by decide
example : isUnderDir true "/a/" "/a/" = 0 := by decide
example : isUnderDir false "" "x" = 0 := by decide
